import Mathlib

/-!
Shallow embedding of the Lisp front end in src/lisp_compiler.cpp: the lexer
(gettok, lines 68-116), the recursive-descent parser (ParseExpr,
ParseListExpr, ParseIdentifierExpr, ParseNumberExpr, lines 179-226), the
identifier code generation (IdentifierExprAST::codegen, lines 146-157 with
the global NamedValues map, line 50), and the driver loop (main, lines
229-249).  Strings of the C++ code are modelled as List Char; the int
LastChar, which may also hold EOF, is modelled by the LChar type; the
character source read by getchar is a List Char consumed from the front.
-/

namespace LLispVM

/-- Character classes of the C ctype functions in the default locale,
restricted to ASCII as the source assumes. -/
def isSpaceC (c : Char) : Bool :=
  c = ' ' || c = '\t' || c = '\n' || c = '\x0d' || c = '\x0b' || c = '\x0c'

/-- Models isdigit. -/
def isDigitC (c : Char) : Bool := '0' ≤ c && c ≤ '9'

/-- Models isalpha. -/
def isAlphaC (c : Char) : Bool := ('a' ≤ c && c ≤ 'z') || ('A' ≤ c && c ≤ 'Z')

/-- Models isalnum. -/
def isAlnumC (c : Char) : Bool := isAlphaC c || isDigitC c

/-- The value of the int variable LastChar: either a character read by
getchar, or the out-of-band EOF value. -/
inductive LChar where
  | ch (c : Char)
  | eofc
deriving DecidableEq, Repr

/-- Models getchar on a finite character source: pops the front character,
or reports EOF when the source is exhausted. -/
def getchar : List Char → LChar × List Char
  | [] => (LChar.eofc, [])
  | c :: cs => (LChar.ch c, cs)

/-- State of the lexer between gettok calls: the buffered look-ahead
LastChar (static, initialized to a space), the remaining character source,
and the globals IdentifierStr (line 64) and NumVal (line 65).  The field
numVal is given the unbounded type Int; the source declares NumVal as a
32-bit int (the code itself fixes sizeof(int)*8 = 32 at line 141), and
the bounded store into it is modelled explicitly by storeOK and gettokC
below, so no theorem rests on values a C int cannot hold. -/
structure LexState where
  lastChar : LChar
  input : List Char
  identifierStr : List Char
  numVal : Int
deriving DecidableEq, Repr

/-- The lexer state at program start on a given character source:
LastChar holds a space, the globals are empty and zero. -/
def initState (cs : List Char) : LexState :=
  ⟨LChar.ch ' ', cs, [], 0⟩

/-- Models the whitespace-skipping loop of gettok (lines 72-73):
while isspace holds for LastChar, LastChar = getchar().  isspace is false
on EOF, so the loop stops at end of input. -/
def skipWhitespace : LChar → List Char → LChar × List Char
  | LChar.eofc, input => (LChar.eofc, input)
  | LChar.ch c, input =>
    if isSpaceC c then
      match input with
      | [] => (LChar.eofc, [])
      | d :: rest => skipWhitespace (LChar.ch d) rest
    else (LChar.ch c, input)

/-- Models the identifier loop (lines 86-88): while isalnum holds for the
next character, append it to IdentifierStr; returns the accumulated text,
the new LastChar and the remaining source. -/
def alnumLoop : List Char → List Char → List Char × LChar × List Char
  | [], acc => (acc, LChar.eofc, [])
  | c :: rest, acc =>
    if isAlnumC c then alnumLoop rest (acc ++ [c])
    else (acc, LChar.ch c, rest)

/-- Models the do-while digit loop (lines 98-101): append LastChar to
NumStr, read the next character, repeat while it is a digit. -/
def digitLoop (c : Char) (acc : List Char) : List Char → List Char × LChar × List Char
  | [] => (acc ++ [c], LChar.eofc, [])
  | d :: rest =>
    if isDigitC d then digitLoop d (acc ++ [c]) rest
    else (acc ++ [c], LChar.ch d, rest)

/-- The exact real value strtod (line 104) computes for the digit-only
strings the number branch builds: the base-10 value of the digit run, by
the usual left fold.  This is a widened reading of the assignment
NumVal = strtod(NumStr): the C program stores the strtod double into a
32-bit int, which preserves this exact value only when it fits in int.
gettok below uses this widened value; it is adequate for every claim in
which NumVal stays at 0, and the int-faithful store is modelled
separately by storeOK and gettokC further down, which the claims about
large values quantify over. -/
def strtodInt (s : List Char) : Int :=
  Int.ofNat (s.foldl (fun a c => 10 * a + (c.toNat - 48)) 0)

/-- Token codes returned by gettok: the Token enum of lines 28-38, plus
tok_char c for the fallthrough that returns an unknown character as its
own value (lines 112-115). -/
inductive TokKind where
  | tok_eof
  | tok_bracket_open
  | tok_bracket_close
  | tok_identifier
  | tok_number
  | tok_char (c : Char)
deriving DecidableEq, Repr

/-- Models gettok (lines 68-116).  Returns the token code and the lexer
state after the call.  Note the two branches that return without reading a
further character: the parenthesis branches (lines 75-82) leave LastChar
holding the parenthesis itself, and the single-zero branch (lines 95-96)
leaves LastChar holding the digit 0. -/
def gettok (st : LexState) : TokKind × LexState :=
  let (last, input) := skipWhitespace st.lastChar st.input
  match last with
  | LChar.eofc =>
    (TokKind.tok_eof,
      { st with lastChar := LChar.eofc, input := input })
  | LChar.ch c =>
    if c = '(' then
      (TokKind.tok_bracket_open,
        { st with lastChar := LChar.ch c, input := input,
                  identifierStr := st.identifierStr ++ [c] })
    else if c = ')' then
      (TokKind.tok_bracket_close,
        { st with lastChar := LChar.ch c, input := input,
                  identifierStr := st.identifierStr ++ [c] })
    else if isAlphaC c then
      let (name, last2, input2) := alnumLoop input [c]
      (TokKind.tok_identifier,
        { lastChar := last2, input := input2,
          identifierStr := name, numVal := st.numVal })
    else if isDigitC c then
      if c = '0' then
        (TokKind.tok_number,
          { st with lastChar := LChar.ch c, input := input,
                    numVal := strtodInt ['0'] })
      else
        let (numStr, last2, input2) := digitLoop c [] input
        (TokKind.tok_number,
          { st with lastChar := last2, input := input2,
                    numVal := strtodInt numStr })
    else
      let (last2, input2) := getchar input
      (TokKind.tok_char c,
        { st with lastChar := last2, input := input2 })

/-- Value of a decimal digit string by positional notation: the leading
digit weighted by ten to the number of remaining digits, plus the value of
the rest. -/
def decimalValue : List Char → Nat
  | [] => 0
  | d :: ds => (d.toNat - 48) * 10 ^ ds.length + decimalValue ds

/-- The nonzero decimal digits, the characters matched by [1-9]. -/
def nineDigits : List Char := ['1', '2', '3', '4', '5', '6', '7', '8', '9']

/-- INT_MAX of the 32-bit int the source uses for NumVal (line 65; the
code fixes the width with APInt(sizeof(int)*8, Val) at line 141). -/
def intMaxC : Int := 2147483647

/-- INT_MIN of the same 32-bit int. -/
def intMinC : Int := -2147483648

/-- The numeric store NumVal = strtod(NumStr) of line 104, as a function
from the collected digit string to the value the int NumVal ends up
holding.  C fixes this pipeline only partially: strtod is correctly
rounded, so on a digit run whose value is at most INT_MAX (hence below
2 to the 53) the double is exactly the decimal value of the run, and the
in-range double-to-int conversion preserves it; for runs beyond INT_MAX
the conversion is undefined behavior, but the int object still ends up
holding some value in int range.  storeOK states exactly these two
guarantees, on the digit-only strings the number branch builds; the
theorems about large literals quantify over every store satisfying it,
covering every possible behavior of the program. -/
def storeOK (store : List Char → Int) : Prop :=
  (∀ s, (∀ d ∈ s, isDigitC d = true) → Int.ofNat (decimalValue s) ≤ intMaxC →
    store s = Int.ofNat (decimalValue s)) ∧
  (∀ s, (∀ d ∈ s, isDigitC d = true) → intMinC ≤ store s ∧ store s ≤ intMaxC)

/-- One concrete store satisfying storeOK: exact when the run fits in
int, and INT_MIN otherwise, the observable x86-64 cvttsd2si result for
the out-of-range conversion. -/
def intStoreTrunc (s : List Char) : Int :=
  if Int.ofNat (decimalValue s) ≤ intMaxC then Int.ofNat (decimalValue s) else intMinC

/-- gettok with the numeric store made explicit: identical to gettok
except that the two number branches record store applied to the
collected literal in numVal, rather than the widened exact value.
gettok is the special case store = strtodInt. -/
def gettokC (store : List Char → Int) (st : LexState) : TokKind × LexState :=
  let (last, input) := skipWhitespace st.lastChar st.input
  match last with
  | LChar.eofc =>
    (TokKind.tok_eof,
      { st with lastChar := LChar.eofc, input := input })
  | LChar.ch c =>
    if c = '(' then
      (TokKind.tok_bracket_open,
        { st with lastChar := LChar.ch c, input := input,
                  identifierStr := st.identifierStr ++ [c] })
    else if c = ')' then
      (TokKind.tok_bracket_close,
        { st with lastChar := LChar.ch c, input := input,
                  identifierStr := st.identifierStr ++ [c] })
    else if isAlphaC c then
      let (name, last2, input2) := alnumLoop input [c]
      (TokKind.tok_identifier,
        { lastChar := last2, input := input2,
          identifierStr := name, numVal := st.numVal })
    else if isDigitC c then
      if c = '0' then
        (TokKind.tok_number,
          { st with lastChar := LChar.ch c, input := input,
                    numVal := store ['0'] })
      else
        let (numStr, last2, input2) := digitLoop c [] input
        (TokKind.tok_number,
          { st with lastChar := last2, input := input2,
                    numVal := store numStr })
    else
      let (last2, input2) := getchar input
      (TokKind.tok_char c,
        { st with lastChar := last2, input := input2 })

/-!
Parser layer.  The parser reads CurTok, a token code together with the
globals IdentifierStr and NumVal that hold its payload at dispatch time;
this is modelled by the Tok type below.  The token cursor (CurTok plus the
lexer behind getNextToken) is modelled by a List Tok whose head is CurTok;
getNextToken is List.tail, and an exhausted list stands for the lexer
returning tok_eof from then on, which the parser dispatch treats like any
other token it has no case for.
-/

/-- A parser-level token: the CurTok code with its payload. -/
inductive Tok where
  | tok_bracket_open
  | tok_bracket_close
  | tok_identifier (name : List Char)
  | tok_number (v : Int)
  | tok_char (c : Char)
deriving DecidableEq, Repr

/-- The AST of lines 121-170: number literals, identifiers, lists of
sub-expressions. -/
inductive ExprAST where
  | NumberExpr (v : Int)
  | IdentifierExpr (name : List Char)
  | ListExpr (items : List ExprAST)
deriving Repr

/-- The single diagnostic the parser ever produces, via Error at line 218. -/
def unknownTokenMsg : String := "unknown token when expecting an expression"

/-- Sentinel for exhausted recursion fuel.  The embedding bounds the
mutual recursion of ParseExpr and ParseListExpr by an explicit fuel
parameter; every theorem below either holds for all fuel values or uses a
fuel visibly larger than the total number of tokens involved, so the
sentinel never occurs in any result the theorems mention. -/
def outOfFuelMsg : String := "out of fuel"

/-- Which of the three mutually recursive parsing routines runs. -/
inductive ParseMode where
  | exprM
  | listM
  | loopM

/-- Fuel-indexed embedding of the parser (lines 182-226), one function
covering the three mutually recursive routines.

Mode exprM is ParseExpr (lines 215-226): dispatch on CurTok; tok_number
builds NumberExpr and advances (ParseNumberExpr, lines 182-186);
tok_identifier builds IdentifierExpr from IdentifierStr and returns
without advancing (ParseIdentifierExpr, lines 210-213, which never calls
getNextToken); tok_bracket_open delegates to ParseListExpr; every other
token, including end of input, hits the default case and fails with the
Error diagnostic of line 218.

Mode listM is ParseListExpr (lines 188-208): eat the opening bracket with
getNextToken (line 189) and enter the loop with an empty Items vector.

Mode loopM is the while loop of lines 191-203: call ParseExpr; on failure
return null (the error propagates); on success push the node, then check
CurTok: if it is tok_bracket_close, break, eat the bracket (line 205) and
return the ListExpr; otherwise call getNextToken (line 202) and iterate. -/
def parseFuel : Nat → ParseMode → List Tok → List ExprAST →
    Except String (ExprAST × List Tok)
  | 0, _, _, _ => Except.error outOfFuelMsg
  | n + 1, ParseMode.exprM, ts, _ =>
    match ts with
    | [] => Except.error unknownTokenMsg
    | Tok.tok_number v :: rest => Except.ok (ExprAST.NumberExpr v, rest)
    | Tok.tok_identifier name :: rest =>
      Except.ok (ExprAST.IdentifierExpr name, Tok.tok_identifier name :: rest)
    | Tok.tok_bracket_open :: rest =>
      parseFuel n ParseMode.listM (Tok.tok_bracket_open :: rest) []
    | Tok.tok_bracket_close :: _ => Except.error unknownTokenMsg
    | Tok.tok_char _ :: _ => Except.error unknownTokenMsg
  | n + 1, ParseMode.listM, ts, _ => parseFuel n ParseMode.loopM ts.tail []
  | n + 1, ParseMode.loopM, ts, items =>
    match parseFuel n ParseMode.exprM ts [] with
    | Except.error e => Except.error e
    | Except.ok (v, ts2) =>
      if ts2.head? = some Tok.tok_bracket_close then
        Except.ok (ExprAST.ListExpr (items ++ [v]), ts2.tail)
      else parseFuel n ParseMode.loopM ts2.tail (items ++ [v])

/-- ParseExpr with the given fuel. -/
def ParseExpr (n : Nat) (ts : List Tok) : Except String (ExprAST × List Tok) :=
  parseFuel n ParseMode.exprM ts []

/-- ParseListExpr with the given fuel. -/
def ParseListExpr (n : Nat) (ts : List Tok) : Except String (ExprAST × List Tok) :=
  parseFuel n ParseMode.listM ts []

/-- The child-collecting loop of ParseListExpr with the given fuel,
current cursor and already accumulated children. -/
def parseListLoop (n : Nat) (ts : List Tok) (items : List ExprAST) :
    Except String (ExprAST × List Tok) :=
  parseFuel n ParseMode.loopM ts items

/-- Models main (lines 229-249): the first getNextToken makes CurTok the
head of the stream, then the switch runs.  CurTok = tok_eof returns 0.
CurTok = tok_bracket_open calls ParseListExpr and then, with no break
statement, falls through into the default case, which prints the ERROR
line and returns -2.  Any other token hits the default case directly. -/
def driverMain (fuel : Nat) (ts : List Tok) : Int :=
  match ts with
  | [] => 0
  | Tok.tok_bracket_open :: rest =>
    let _r := ParseListExpr fuel (Tok.tok_bracket_open :: rest)
    (-2 : Int)
  | _ :: _ => -2

/-!
Code generation layer for identifiers.  NamedValues (line 50) is a
std::map from std::string to llvm::Value pointer; a Value pointer may be
null, so the mapped type is modelled as Option Nat with none for nullptr.
The map itself is modelled as an association list; the position at which
operator[] inserts is immaterial to every property stated below.
-/

/-- A possibly null llvm::Value pointer: none is nullptr. -/
abbrev ValuePtr := Option Nat

/-- The global NamedValues map, as an association list. -/
abbrev NamedValuesMap := List (List Char × ValuePtr)

/-- Lookup in the association list modelling std::map::find semantics. -/
def mapFind (k : List Char) : NamedValuesMap → Option ValuePtr
  | [] => none
  | (k2, v) :: rest => if k = k2 then some v else mapFind k rest

/-- Models std::map::operator[] as used at line 152: return the mapped
value when the key is present; otherwise value-initialize a new entry for
the key (a null Value pointer) and return that. -/
def mapIndex (k : List Char) (m : NamedValuesMap) : ValuePtr × NamedValuesMap :=
  match mapFind k m with
  | some v => (v, m)
  | none => (none, m ++ [(k, none)])

/-- Models IdentifierExprAST codegen (lines 151-156): V = NamedValues[Name];
if V is null, call ErrorV, which prints the diagnostic and whose nullptr
result is discarded; return V either way.  Result: the returned Value
pointer, the NamedValues map after the call, and whether the diagnostic
was emitted. -/
def identifierCodegen (name : List Char) (m : NamedValuesMap) :
    ValuePtr × NamedValuesMap × Bool :=
  let (v, m2) := mapIndex name m
  (v, m2, v.isNone)

/-!
Helper lemmas.
-/

/-- When every remaining character is a digit, the digit loop consumes the
whole source, appends the full run to the accumulator, and leaves LastChar
holding EOF. -/
theorem digitLoop_all_digits (cs : List Char) (c : Char) (acc : List Char)
    (h : ∀ d ∈ cs, isDigitC d = true) :
    digitLoop c acc cs = (acc ++ c :: cs, LChar.eofc, []) := by
  induction cs generalizing c acc with
  | nil => rfl
  | cons d rest ih =>
    have hd : isDigitC d = true := h d (List.mem_cons_self d rest)
    have hrest : ∀ x ∈ rest, isDigitC x = true :=
      fun x hx => h x (List.mem_cons_of_mem d hx)
    simp only [digitLoop, hd, if_true, ih d (acc ++ [c]) hrest,
      List.append_assoc, List.singleton_append]

/-- The left fold used by the number conversion is Horner evaluation: its
result is the accumulator shifted by the length of the run plus the
positional value of the run. -/
theorem foldl_horner (ds : List Char) (acc : Nat) :
    ds.foldl (fun a c => 10 * a + (c.toNat - 48)) acc
      = acc * 10 ^ ds.length + decimalValue ds := by
  induction ds generalizing acc with
  | nil => simp [decimalValue]
  | cons d rest ih =>
    simp only [List.foldl_cons, ih, decimalValue, List.length_cons]
    ring

/-- Appending a fresh binding at the end of an association list that does
not yet bind the key makes lookups of that key find the new binding. -/
theorem mapFind_append_fresh (k : List Char) (m : NamedValuesMap) (v : ValuePtr)
    (h : mapFind k m = none) : mapFind k (m ++ [(k, v)]) = some v := by
  induction m with
  | nil => simp [mapFind]
  | cons p rest ih =>
    obtain ⟨k2, w⟩ := p
    by_cases hk : k = k2
    · simp [mapFind, hk] at h
    · have h2 : mapFind k rest = none := by simpa [mapFind, hk] using h
      simpa [mapFind, hk] using ih h2

/-- Whether a parse result is a success. -/
def isOkResult : Except String (ExprAST × List Tok) → Bool
  | Except.ok _ => true
  | Except.error _ => false

/-!
Claims.
-/

/-- gettokC instantiated with the widened exact store is gettok: the two
definitions differ only in the numeric store of the number branches. -/
theorem gettokC_strtodInt (st : LexState) : gettokC strtodInt st = gettok st :=
  rfl

/-- On an input that is a nonzero digit followed by digits only, gettokC
skips the initial blank look-ahead, takes the nonzero-number branch,
consumes the entire run, and records the store of the full run in
NumVal, leaving LastChar at EOF with the source exhausted. -/
theorem gettokC_digit_run (store : List Char → Int) (c : Char) (cs : List Char)
    (hc : c ∈ nineDigits) (hcs : ∀ d ∈ cs, isDigitC d = true) :
    gettokC store (initState (c :: cs)) =
      (TokKind.tok_number, ⟨LChar.eofc, [], [], store (c :: cs)⟩) := by
  have hfacts : ∀ x ∈ nineDigits,
      isSpaceC x = false ∧ x ≠ '(' ∧ x ≠ ')' ∧ isAlphaC x = false ∧
      isDigitC x = true ∧ x ≠ '0' := by decide
  obtain ⟨h1, h2, h3, h4, h5, h6⟩ := hfacts c hc
  have hskip2 : skipWhitespace (LChar.ch c) cs = (LChar.ch c, cs) := by
    cases cs <;> simp [skipWhitespace, h1]
  have hskip : skipWhitespace (LChar.ch ' ') (c :: cs) = (LChar.ch c, cs) := by
    have hsp : isSpaceC ' ' = true := by decide
    simp [skipWhitespace, hsp, hskip2]
  have hdig : digitLoop c [] cs = (c :: cs, LChar.eofc, []) := by
    simpa using digitLoop_all_digits cs c [] hcs
  simp only [gettokC, initState, hskip, h2, h3, h4, h5, h6, hdig,
    if_false, if_true, Bool.false_eq_true, ite_false, ite_true]

/-- The concrete truncating store satisfies both guarantees of the
numeric pipeline. -/
theorem intStoreTrunc_ok : storeOK intStoreTrunc := by
  constructor
  · intro s _ h
    unfold intStoreTrunc
    rw [if_pos h]
  · intro s _
    unfold intStoreTrunc
    by_cases h : Int.ofNat (decimalValue s) ≤ intMaxC
    · rw [if_pos h]
      refine ⟨?_, h⟩
      have h0 : (0 : Int) ≤ Int.ofNat (decimalValue s) := Int.ofNat_nonneg _
      unfold intMinC
      omega
    · rw [if_neg h]
      refine ⟨le_refl _, ?_⟩
      unfold intMinC intMaxC
      omega

/-- Claim C8 counterexample: the digit run 2147483648 matches
[1-9][0-9]* and its decimal value is INT_MAX + 1.  Under the concrete
store intStoreTrunc the lexer consumes the run and carries the int value
-2147483648, not 2147483648, so the value carried by the Number token
differs from the decimal value of the full run.  (claim_c8_large_runs
below shows the same inequality under every store satisfying storeOK,
since any int value lies below the decimal value of this run.) -/
theorem claim_c8_counterexample :
    gettokC intStoreTrunc
        (initState ['2', '1', '4', '7', '4', '8', '3', '6', '4', '8']) =
      (TokKind.tok_number, ⟨LChar.eofc, [], [], -2147483648⟩) ∧
    Int.ofNat (decimalValue ['2', '1', '4', '7', '4', '8', '3', '6', '4', '8']) =
      2147483648 ∧
    (gettokC intStoreTrunc
        (initState ['2', '1', '4', '7', '4', '8', '3', '6', '4', '8'])).2.numVal ≠
      Int.ofNat (decimalValue ['2', '1', '4', '7', '4', '8', '3', '6', '4', '8']) := by
  refine ⟨by decide, by decide, by decide⟩

/-- Claim C8 amended: for every digit-only input matching [1-9][0-9]*
and every numeric store the C pipeline can exhibit, the lexer yields
exactly one Number token for the full run (the next call returns
EndOfInput from an unchanged state), and the int value carried by that
token equals the base-10 value denoted by the full digit run if and only
if that value is at most INT_MAX; runs beyond INT_MAX cannot be carried
faithfully by the 32-bit NumVal. -/
theorem claim_c8_large_runs (store : List Char → Int) (hstore : storeOK store)
    (c : Char) (cs : List Char)
    (hc : c ∈ nineDigits) (hcs : ∀ d ∈ cs, isDigitC d = true) :
    gettokC store (initState (c :: cs)) =
      (TokKind.tok_number, ⟨LChar.eofc, [], [], store (c :: cs)⟩) ∧
    gettokC store ⟨LChar.eofc, [], [], store (c :: cs)⟩ =
      (TokKind.tok_eof, ⟨LChar.eofc, [], [], store (c :: cs)⟩) ∧
    (store (c :: cs) = Int.ofNat (decimalValue (c :: cs)) ↔
      Int.ofNat (decimalValue (c :: cs)) ≤ intMaxC) := by
  have hdigs : ∀ d ∈ c :: cs, isDigitC d = true := by
    intro d hd
    rcases List.mem_cons.mp hd with h | h
    · subst h
      exact (by decide : ∀ x ∈ nineDigits, isDigitC x = true) d hc
    · exact hcs d h
  refine ⟨gettokC_digit_run store c cs hc hcs, rfl, ?_, ?_⟩
  · intro h
    have hb := (hstore.2 (c :: cs) hdigs).2
    rw [h] at hb
    exact hb
  · intro h
    exact hstore.1 (c :: cs) hdigs h

/-- Claim C8 witness: the in-range run 42 under the concrete truncating
store: one Number token carrying 42, then EndOfInput, and the carried
value equals the decimal value, which is within INT_MAX. -/
theorem claim_c8_large_runs_witness :
    gettokC intStoreTrunc (initState ['4', '2']) =
      (TokKind.tok_number, ⟨LChar.eofc, [], [], intStoreTrunc ['4', '2']⟩) ∧
    gettokC intStoreTrunc ⟨LChar.eofc, [], [], intStoreTrunc ['4', '2']⟩ =
      (TokKind.tok_eof, ⟨LChar.eofc, [], [], intStoreTrunc ['4', '2']⟩) ∧
    (intStoreTrunc ['4', '2'] = Int.ofNat (decimalValue ['4', '2']) ↔
      Int.ofNat (decimalValue ['4', '2']) ≤ intMaxC) :=
  claim_c8_large_runs intStoreTrunc intStoreTrunc_ok '4' ['2']
    (by decide) (by decide)

/-- Claim C1: evaluation of ParseExpr on a stream whose current token is
an identifier.  The Identifier node does carry the name and is returned,
but the returned cursor is the unchanged input stream: ParseIdentifierExpr
(lines 210-213) never calls getNextToken, so after the call the current
token is still the same Identifier token, contradicting the mandatory
advance the claim states. -/
theorem claim_c1_identifier_no_advance (name : List Char) (ts : List Tok) (n : Nat) :
    ParseExpr (n + 1) (Tok.tok_identifier name :: ts) =
      Except.ok (ExprAST.IdentifierExpr name, Tok.tok_identifier name :: ts) :=
  rfl

/-- Claim C2: evaluation of gettok at the failing input.  On the source
text consisting of an open and a close parenthesis, the first call
returns tok_bracket_open but leaves LastChar holding the open parenthesis
and the read position unmoved (the branch at lines 75-78 never calls
getchar), so the second call classifies the same character and returns
tok_bracket_open again instead of tok_bracket_close. -/
theorem claim_c2_paren_never_consumed :
    gettok (initState ['(', ')']) =
      (TokKind.tok_bracket_open, ⟨LChar.ch '(', [')'], ['('], 0⟩) ∧
    gettok ⟨LChar.ch '(', [')'], ['('], 0⟩ =
      (TokKind.tok_bracket_open, ⟨LChar.ch '(', [')'], ['(', '('], 0⟩) :=
  ⟨rfl, rfl⟩

/-- Claim C3: evaluation of gettok at the failing input 007.  The first
call returns tok_number with NumVal 0, but the branch at lines 95-96
never calls getchar, so the resulting lexer state is a fixpoint of
gettok: every further call returns tok_number 0 from the same state, and
the lexer never reaches the remaining digits or end of input. -/
theorem claim_c3_zero_never_consumed :
    gettok (initState ['0', '0', '7']) =
      (TokKind.tok_number, ⟨LChar.ch '0', ['0', '7'], [], 0⟩) ∧
    gettok ⟨LChar.ch '0', ['0', '7'], [], 0⟩ =
      (TokKind.tok_number, ⟨LChar.ch '0', ['0', '7'], [], 0⟩) :=
  ⟨rfl, rfl⟩

/-- Claim C4 counterexample: parsing the token stream of the source text
consisting only of an open and a close parenthesis does not succeed, so
it does not return a List node with an empty children sequence. -/
theorem claim_c4_counterexample :
    isOkResult
      (ParseListExpr 9 [Tok.tok_bracket_open, Tok.tok_bracket_close]) = false :=
  rfl

/-- Claim C4 amended: parsing the empty list fails with the single
unexpected-token diagnostic, because the loop of ParseListExpr (lines
191-203) calls ParseExpr before ever comparing CurTok against
tok_bracket_close, and ParseExpr has no case for tok_bracket_close. -/
theorem claim_c4_empty_list_fails :
    ParseListExpr 9 [Tok.tok_bracket_open, Tok.tok_bracket_close] =
      Except.error unknownTokenMsg :=
  rfl

/-- Claim C5: evaluation at the claimed input and at a second input
exposing the same defect.  The token stream of (a 1 2) fails to parse:
after the Number 1 child, whose parse advanced past it, the unconditional
getNextToken at line 202 discards the Number 2 token, leaving CurTok at
tok_bracket_close, where ParseExpr fails.  On the token stream of
(1 2 3) the same extra advance silently drops the middle child and the
parse returns a List with children 1 and 3 only. -/
theorem claim_c5_list_children :
    ParseExpr 9 [Tok.tok_bracket_open, Tok.tok_identifier ['a'],
        Tok.tok_number 1, Tok.tok_number 2, Tok.tok_bracket_close] =
      Except.error unknownTokenMsg ∧
    ParseExpr 9 [Tok.tok_bracket_open, Tok.tok_number 1, Tok.tok_number 2,
        Tok.tok_number 3, Tok.tok_bracket_close] =
      Except.ok (ExprAST.ListExpr [ExprAST.NumberExpr 1, ExprAST.NumberExpr 3], []) :=
  ⟨rfl, rfl⟩

/-- Claim C6 counterexample: the failure produced when end of input is
reached inside the open list (a b is the very same error value ParseExpr
produces for a plain unexpected token such as a stray close parenthesis;
the code has a single parse diagnostic and no distinct UnterminatedList
error kind. -/
theorem claim_c6_counterexample :
    ParseListExpr 9 [Tok.tok_bracket_open, Tok.tok_identifier ['a'],
        Tok.tok_identifier ['b']] = Except.error unknownTokenMsg ∧
    ParseExpr 9 [Tok.tok_bracket_close] = Except.error unknownTokenMsg :=
  ⟨rfl, rfl⟩

/-- Claim C6 amended: parsing the source text (a b does fail once end of
input is reached, and whenever the list loop runs at end of input it
fails, but in both cases with the generic unexpected-token diagnostic:
end of input inside a list simply reaches the default case of ParseExpr
(line 218). -/
theorem claim_c6_unterminated_generic :
    ParseExpr 9 [Tok.tok_bracket_open, Tok.tok_identifier ['a'],
        Tok.tok_identifier ['b']] = Except.error unknownTokenMsg ∧
    ∀ (n : Nat) (items : List ExprAST),
      parseListLoop (n + 2) [] items = Except.error unknownTokenMsg :=
  ⟨rfl, fun _ _ => rfl⟩

/-- Claim C7: evaluation of the driver.  On a stream holding one
well-formed top-level list followed by end of input the driver returns
-2: the tok_bracket_open case of the switch (lines 240-241) has no break,
so after ParseListExpr returns, control falls through into the default
case, which reports an error and returns -2 instead of looping on to see
tok_eof.  Only an immediately empty stream terminates normally. -/
theorem claim_c7_driver_aborts :
    driverMain 9 [Tok.tok_bracket_open, Tok.tok_number 1, Tok.tok_bracket_close] = -2 ∧
    driverMain 9 ([] : List Tok) = 0 :=
  ⟨rfl, rfl⟩

/-- Claim C9: if the child ParseExpr call fails, the surrounding
ParseListExpr loop fails immediately with the very same error, whatever
children it had already accumulated (they are discarded, never returned
as a partial list), and a list whose first child parse fails at any
nesting depth fails with that same error. -/
theorem claim_c9_error_propagation (n : Nat) (ts : List Tok)
    (items : List ExprAST) (e : String)
    (h : ParseExpr n ts = Except.error e) :
    parseListLoop (n + 1) ts items = Except.error e ∧
    ParseListExpr (n + 2) (Tok.tok_bracket_open :: ts) = Except.error e := by
  have hh : parseFuel n ParseMode.exprM ts [] = Except.error e := h
  have hloop : ∀ its : List ExprAST,
      parseFuel (n + 1) ParseMode.loopM ts its = Except.error e := by
    intro its
    simp [parseFuel, hh]
  exact ⟨hloop items, hloop []⟩

/-- Claim C9 witness: a concrete failing child (a stray close
parenthesis) aborts the loop and the enclosing list with the same
diagnostic, discarding an already parsed child. -/
theorem claim_c9_error_propagation_witness :
    parseListLoop 6 [Tok.tok_bracket_close] [ExprAST.NumberExpr 7] =
      Except.error unknownTokenMsg ∧
    ParseListExpr 7 [Tok.tok_bracket_open, Tok.tok_bracket_close] =
      Except.error unknownTokenMsg :=
  claim_c9_error_propagation 5 [Tok.tok_bracket_close]
    [ExprAST.NumberExpr 7] unknownTokenMsg rfl

/-- Claim C10: code generation for an identifier with no binding in
NamedValues returns the null Value pointer (not a distinct error object),
emits the diagnostic, and as a side effect of operator[] inserts a
null-valued entry for the name, growing the table by one and making the
name present afterwards. -/
theorem claim_c10_fresh_lookup_inserts (name : List Char) (m : NamedValuesMap)
    (h : mapFind name m = none) :
    identifierCodegen name m = (none, m ++ [(name, none)], true) ∧
    (m ++ [(name, none)]).length = m.length + 1 ∧
    mapFind name (m ++ [(name, none)]) = some none := by
  refine ⟨?_, by simp, mapFind_append_fresh name m none h⟩
  simp [identifierCodegen, mapIndex, h]

/-- Claim C10 witness: looking up the fresh name x in the empty table
returns null, reports the diagnostic, and leaves a one-entry table
binding x to null. -/
theorem claim_c10_fresh_lookup_inserts_witness :
    identifierCodegen ['x'] [] = (none, [(['x'], none)], true) ∧
    ([(['x'], none)] : NamedValuesMap).length = 1 ∧
    mapFind ['x'] [(['x'], none)] = some none :=
  claim_c10_fresh_lookup_inserts ['x'] [] rfl

end LLispVM
